import Mathlib

/-!
Verification of the numeric literal model and the module path resolution
strategy of the darklua source-to-source transformation tool.

The numeric literal model is embedded from `src/nodes/expressions/number.rs`:
the `DecimalNumber`, `HexNumber` and `NumberExpression` types, the
`FromStr` parser and the `compute_value` / `set_uppercase` operations.
Strings are modelled as `List Char`; every slice index produced by the
parser sits at an ASCII character, so character indices and Rust's byte
indices denote the same substrings.

64-bit floats are modelled exactly: a value is either a rational, an
infinity with a sign, or NaN.  Decimal-to-float rounding is elided (the
rational carries the exact decimal value); every concrete value appearing
in the claims is exactly representable, so no claim depends on rounding.
Machine integers are `ℕ`/`ℤ` with explicit bounds: the fallible Rust
integer parsers reject out-of-range values, and the one place where the
code performs unchecked arithmetic (`HexNumber::compute_value`) is
modelled with the wrap-around semantics of release builds together with
an explicit overflow predicate capturing the panic condition of
overflow-checked builds.
-/

deriving instance DecidableEq for Except

/-- Model of Rust `f64` values: an exact rational, a signed infinity, or NaN. -/
inductive F64 where
  | finite (q : ℚ)
  | inf (negative : Bool)
  | nan
deriving DecidableEq, Repr

/-- Rust `f64` equality (`PartialEq`): NaN compares unequal to everything,
including itself. -/
def F64.rustEq : F64 → F64 → Bool
  | .finite a, .finite b => decide (a = b)
  | .inf a, .inf b => a == b
  | _, _ => false

/-- Exact multiplication of a rational by `10^e`, written with `mkRat` so that
it evaluates by kernel reduction (the library's rational multiplication is
irreducible); `mulPow10Q_eq` below shows it agrees with `q * 10^e`. -/
def mulPow10Q (q : ℚ) : ℤ → ℚ
  | .ofNat n => mkRat (q.num * 10 ^ n) q.den
  | .negSucc n => mkRat q.num (q.den * 10 ^ (n + 1))

/-- Multiplication of an `f64` by the (positive, finite) scale factor `10^e`,
as used by `DecimalNumber::compute_value`: a positive finite factor preserves
infinities and NaN. -/
def F64.mulPow10 : F64 → ℤ → F64
  | .finite a, e => .finite (mulPow10Q a e)
  | .inf n, _ => .inf n
  | .nan, _ => .nan

/-- Numeric value of a decimal digit character. -/
def digitVal (c : Char) : ℕ := c.toNat - '0'.toNat

/-- Accumulate a list of decimal digits into a natural number. -/
def digitsToNat (s : List Char) : ℕ :=
  s.foldl (fun n c => 10 * n + digitVal c) 0

/-- Rust `char::to_digit(16)`: value of a hexadecimal digit, if any. -/
def hexDigitVal (c : Char) : Option ℕ :=
  if '0' ≤ c ∧ c ≤ '9' then some (c.toNat - '0'.toNat)
  else if 'a' ≤ c ∧ c ≤ 'f' then some (c.toNat - 'a'.toNat + 10)
  else if 'A' ≤ c ∧ c ≤ 'F' then some (c.toNat - 'A'.toNat + 10)
  else none

/-- Accumulate a list of hexadecimal digits into a natural number. -/
def hexDigitsToNat (s : List Char) : ℕ :=
  s.foldl (fun n c => 16 * n + (hexDigitVal c).getD 0) 0

/-- Strip an optional leading sign; returns whether the sign was `-` and the rest. -/
def stripSign : List Char → Bool × List Char
  | [] => (false, [])
  | c :: rest =>
    if c = '+' then (false, rest)
    else if c = '-' then (true, rest)
    else (false, c :: rest)

/-- Strip an optional leading `+` (the unsigned Rust integer parsers accept
one; a `-` is left in place and then fails the digit test). -/
def stripPlus : List Char → List Char
  | [] => []
  | c :: rest => if c = '+' then rest else c :: rest

/-- A nonempty all-decimal-digit string, as a natural number. -/
def parseDigitsNat (s : List Char) : Option ℕ :=
  if s = [] then none
  else if s.all Char.isDigit then some (digitsToNat s)
  else none

/-- Rust `u64::from_str_radix(s, 16)` and `u32::from_str` share this shape:
an optional leading `+` (a `-` is not stripped for unsigned types and then
fails the digit test), at least one digit, and a range check — Rust's
checked accumulation returns an overflow error exactly when the value
reaches the type's bound.  `bound` is `2^64` or `2^32`. -/
def rustParseNatHex (bound : ℕ) (s : List Char) : Option ℕ :=
  let t := stripPlus s
  if t = [] then none
  else if t.all (fun c => (hexDigitVal c).isSome) then
    if hexDigitsToNat t < bound then some (hexDigitsToNat t) else none
  else none

/-- Rust `u32::from_str`: optional leading `+`, at least one decimal digit,
value below `2^32` (checked accumulation rejects overflow). -/
def rustParseU32 (s : List Char) : Option ℕ :=
  match parseDigitsNat (stripPlus s) with
  | some v => if v < 2 ^ 32 then some v else none
  | none => none

/-- Rust `i64::from_str`: optional leading `+` or `-`, at least one decimal
digit, value within `[-2^63, 2^63 - 1]`. -/
def rustParseI64 (s : List Char) : Option ℤ :=
  let (neg, rest) := stripSign s
  match parseDigitsNat rest with
  | some v =>
    if neg then
      if v ≤ 2 ^ 63 then some (-(v : ℤ)) else none
    else
      if v < 2 ^ 63 then some (v : ℤ) else none
  | none => none

/-- The mantissa productions of Rust's `f64::from_str` grammar:
`Count '.' Digit* | '.' Digit+ | Count`.  Returns the exact rational value
and the unconsumed remainder. -/
def parseMantissa (s : List Char) : Option (ℚ × List Char) :=
  let intPart := s.takeWhile Char.isDigit
  let rest := s.dropWhile Char.isDigit
  match rest with
  | '.' :: rest2 =>
    let fracPart := rest2.takeWhile Char.isDigit
    let rest3 := rest2.dropWhile Char.isDigit
    if intPart = [] ∧ fracPart = [] then none
    else some (mkRat (digitsToNat intPart * 10 ^ fracPart.length
      + digitsToNat fracPart) (10 ^ fracPart.length), rest3)
  | _ =>
    if intPart = [] then none
    else some ((digitsToNat intPart : ℚ), rest)

/-- Rust `f64::from_str`.  Grammar (from the standard library documentation):
`Float ::= Sign? ('inf' | 'infinity' | 'nan' | Number)`,
`Number ::= Count '.' Digit* Exp? | '.' Digit+ Exp? | Count Exp?`,
`Exp ::= ('e' | 'E') Sign? Count`, with the special forms matched
case-insensitively.  The rational result is the exact decimal value
(rounding to the nearest `f64` is elided by the model). -/
def rustParseF64 (s : List Char) : Option F64 :=
  let (neg, rest) := stripSign s
  let lowered := rest.map Char.toLower
  if lowered = "inf".data ∨ lowered = "infinity".data then some (.inf neg)
  else if lowered = "nan".data then some .nan
  else
    match parseMantissa rest with
    | none => none
    | some (m, rest2) =>
      let signed : ℚ := if neg then -m else m
      match rest2 with
      | [] => some (.finite signed)
      | c :: rest3 =>
        if c = 'e' ∨ c = 'E' then
          let (eneg, rest4) := stripSign rest3
          let expDigits := rest4.takeWhile Char.isDigit
          let rest5 := rest4.dropWhile Char.isDigit
          if expDigits = [] ∨ rest5 ≠ [] then none
          else
            let ex : ℤ := if eneg then -(digitsToNat expDigits : ℤ) else digitsToNat expDigits
            some (.finite (mulPow10Q signed ex))
        else none

/-- `DecimalNumber` from `number.rs`: the parsed mantissa (`float`) and an
optional pair of signed 64-bit exponent and uppercase-marker flag. -/
structure DecimalNumber where
  float : F64
  exponent : Option (ℤ × Bool)
deriving DecidableEq, Repr

/-- `DecimalNumber::new`. -/
def DecimalNumber.new (value : F64) : DecimalNumber :=
  { float := value, exponent := none }

/-- `DecimalNumber::with_exponent`. -/
def DecimalNumber.with_exponent (d : DecimalNumber) (exponent : ℤ)
    (is_uppercase : Bool) : DecimalNumber :=
  { d with exponent := some (exponent, is_uppercase) }

/-- `DecimalNumber::set_uppercase`: rewrite the marker flag of the exponent
pair, if present. -/
def DecimalNumber.set_uppercase (d : DecimalNumber) (is_uppercase : Bool) :
    DecimalNumber :=
  { d with exponent := d.exponent.map (fun p => (p.1, is_uppercase)) }

/-- `DecimalNumber::compute_value`: `float * 10^exponent` when an exponent is
present, else `float`. -/
def DecimalNumber.compute_value (d : DecimalNumber) : F64 :=
  match d.exponent with
  | some (exponent, _) => d.float.mulPow10 exponent
  | none => d.float

/-- `HexNumber` from `number.rs`: unsigned 64-bit `integer`, optional pair of
unsigned 32-bit exponent and uppercase-marker flag, and the case of the
`0x`/`0X` marker. -/
structure HexNumber where
  integer : ℕ
  exponent : Option (ℕ × Bool)
  is_x_uppercase : Bool
deriving DecidableEq, Repr

/-- `HexNumber::new`. -/
def HexNumber.new (integer : ℕ) (is_x_uppercase : Bool) : HexNumber :=
  { integer := integer, exponent := none, is_x_uppercase := is_x_uppercase }

/-- `HexNumber::with_exponent`. -/
def HexNumber.with_exponent (h : HexNumber) (exponent : ℕ)
    (is_uppercase : Bool) : HexNumber :=
  { h with exponent := some (exponent, is_uppercase) }

/-- `HexNumber::set_uppercase`: rewrite the exponent marker flag (if an
exponent is present) and the `0x` marker flag unconditionally. -/
def HexNumber.set_uppercase (h : HexNumber) (is_uppercase : Bool) : HexNumber :=
  { h with exponent := h.exponent.map (fun p => (p.1, is_uppercase)),
           is_x_uppercase := is_uppercase }

/-- `HexNumber::compute_value`: `(self.integer * 2_u64.pow(exponent)) as f64`.
Both the power and the product are `u64` operations; with overflow checks
disabled they wrap modulo `2^64` (wrapping the power and then the product
agrees with reducing the mathematical product), and the final cast widens the
resulting integer to a float. -/
def HexNumber.compute_value (h : HexNumber) : F64 :=
  match h.exponent with
  | some (exponent, _) => .finite ((h.integer * 2 ^ exponent % 2 ^ 64 : ℕ) : ℚ)
  | none => .finite ((h.integer : ℚ))

/-- The condition under which `HexNumber::compute_value` overflows `u64`
arithmetic: this is exactly the panic condition of an overflow-checked
(debug/test profile) build. -/
def HexNumber.compute_overflows (h : HexNumber) : Bool :=
  match h.exponent with
  | some (exponent, _) =>
    decide (2 ^ 64 ≤ 2 ^ exponent) || decide (2 ^ 64 ≤ h.integer * 2 ^ exponent)
  | none => false

/-- `NumberExpression`: the unified literal variant. -/
inductive NumberExpression where
  | Decimal (d : DecimalNumber)
  | Hex (h : HexNumber)
deriving DecidableEq, Repr

/-- `NumberExpression::set_uppercase`. -/
def NumberExpression.set_uppercase (n : NumberExpression) (is_uppercase : Bool) :
    NumberExpression :=
  match n with
  | .Decimal d => .Decimal (d.set_uppercase is_uppercase)
  | .Hex h => .Hex (h.set_uppercase is_uppercase)

/-- `NumberExpression::compute_value`. -/
def NumberExpression.compute_value (n : NumberExpression) : F64 :=
  match n with
  | .Decimal d => d.compute_value
  | .Hex h => h.compute_value

/-- `NumberParsingError` from `number.rs`. -/
inductive NumberParsingError where
  | InvalidHexadecimalNumber
  | InvalidHexadecimalExponent
  | InvalidDecimalNumber
  | InvalidDecimalExponent
deriving DecidableEq, Repr

/-- Rust `==` on `DecimalNumber` (the derived `PartialEq`, which the code
asserts to be total via `impl Eq`): fieldwise, with the `float` field compared
by `f64` equality. -/
def DecimalNumber.rustEq (a b : DecimalNumber) : Bool :=
  a.float.rustEq b.float && decide (a.exponent = b.exponent)

/-- Rust `==` on `HexNumber` (derived `PartialEq`/`Eq`): fieldwise on integers
and booleans. -/
def HexNumber.rustEq (a b : HexNumber) : Bool :=
  decide (a = b)

/-- Rust `==` on `NumberExpression` (derived `PartialEq`). -/
def NumberExpression.rustEq : NumberExpression → NumberExpression → Bool
  | .Decimal a, .Decimal b => a.rustEq b
  | .Hex a, .Hex b => a.rustEq b
  | _, _ => false

/-- `value.starts_with("0x")`. -/
def startsWith0x : List Char → Bool
  | c1 :: c2 :: _ => c1 = '0' && c2 = 'x'
  | _ => false

/-- `value.starts_with("0X")`. -/
def startsWith0X : List Char → Bool
  | c1 :: c2 :: _ => c1 = '0' && c2 = 'X'
  | _ => false

/-- `<NumberExpression as FromStr>::from_str`, on the character list of the
input.  Mirrors the Rust control flow: dispatch on the `0x`/`0X` marker; in
the hexadecimal branch look for the first `p` and then the first `P`, parsing
the exponent substring (as `u32`) before the mantissa substring (base-16
`u64`); in the decimal branch look for the first `e` and then the first `E`,
parsing the exponent substring (as `i64`) before the mantissa substring
(`f64`); without a marker, parse the whole remainder.  All slice indices fall
on ASCII characters, so character slicing coincides with Rust's byte slicing. -/
def numberFromStr (value : List Char) : Except NumberParsingError NumberExpression :=
  if startsWith0x value || startsWith0X value then
    let is_x_uppercase := match value.get? 1 with
      | some c => c.isUpper
      | none => false
    match value.findIdx? (· = 'p') with
    | some index =>
      match rustParseU32 (value.drop (index + 1)) with
      | none => .error .InvalidHexadecimalExponent
      | some exponent =>
        match rustParseNatHex (2 ^ 64) ((value.take index).drop 2) with
        | none => .error .InvalidHexadecimalNumber
        | some number =>
          .ok (.Hex ((HexNumber.new number is_x_uppercase).with_exponent exponent false))
    | none =>
      match value.findIdx? (· = 'P') with
      | some index =>
        match rustParseU32 (value.drop (index + 1)) with
        | none => .error .InvalidHexadecimalExponent
        | some exponent =>
          match rustParseNatHex (2 ^ 64) ((value.take index).drop 2) with
          | none => .error .InvalidHexadecimalNumber
          | some number =>
            .ok (.Hex ((HexNumber.new number is_x_uppercase).with_exponent exponent true))
      | none =>
        match rustParseNatHex (2 ^ 64) (value.drop 2) with
        | none => .error .InvalidHexadecimalNumber
        | some number => .ok (.Hex (HexNumber.new number is_x_uppercase))
  else
    match value.findIdx? (· = 'e') with
    | some index =>
      match rustParseI64 (value.drop (index + 1)) with
      | none => .error .InvalidDecimalExponent
      | some exponent =>
        match rustParseF64 (value.take index) with
        | none => .error .InvalidDecimalNumber
        | some number =>
          .ok (.Decimal ((DecimalNumber.new number).with_exponent exponent false))
    | none =>
      match value.findIdx? (· = 'E') with
      | some index =>
        match rustParseI64 (value.drop (index + 1)) with
        | none => .error .InvalidDecimalExponent
        | some exponent =>
          match rustParseF64 (value.take index) with
          | none => .error .InvalidDecimalNumber
          | some number =>
            .ok (.Decimal ((DecimalNumber.new number).with_exponent exponent true))
      | none =>
        match rustParseF64 value with
        | none => .error .InvalidDecimalNumber
        | some number => .ok (.Decimal (DecimalNumber.new number))

/-- `Parse` followed by `ComputeValue`, when parsing succeeds. -/
def parseComputeValue (s : List Char) : Option F64 :=
  (numberFromStr s).toOption.map NumberExpression.compute_value

/-- The argument of a module-loading call: either a literal string or a
dynamically computed expression.  Modelled from the spec: the full
expression taxonomy of `crate::nodes` is an external collaborator; only the
distinction between a literal/path-shaped argument and a non-literal one is
relevant to path resolution (§4.2, §8 "Non-module calls"). -/
inductive RequireArg where
  | literalString (s : List Char)
  | dynamic
deriving DecidableEq, Repr

/-- A module-loading call site, carrying its argument.  Modelled from the
spec: `crate::nodes::FunctionCall` is declared outside the given sources. -/
structure FunctionCall where
  argument : RequireArg
deriving DecidableEq, Repr

/-- A file-system path as its list of components from the root; a component
is path-shaped when it is nonempty and contains no separator. -/
def validComponent (c : List Char) : Bool :=
  !c.isEmpty && !c.contains '/'

/-- A valid target path: nonempty, with every component path-shaped. -/
def validPath (p : List (List Char)) : Bool :=
  !p.isEmpty && p.all validComponent

/-- Render a component path as a `/`-separated string. -/
def renderPath (p : List (List Char)) : List Char :=
  [('/' : Char)].intercalate p

/-- Split a `/`-separated string into its components. -/
def splitPath (s : List Char) : List (List Char) :=
  s.splitOn '/'

/-- The path resolution strategies.  Modelled from the spec: the sources
declare only the `RequirePathLocatorMode` trait (`get_source`,
`module_folder_name`, `match_path_require_call`); the concrete strategy
variants — "path-based" and "module-name based with an implicit module
folder convention" — and the `RewriteCall` operation are described in
§4.2/§6 but their code is not among the given sources.  `pathBased`
resolves a literal `/`-separated path string; `moduleFolder` resolves a
module name to the configured root directory, the module's own folder and
the configured module-folder (index) file inside it. -/
inductive RequirePathLocatorMode where
  | pathBased (folderName : List Char)
  | moduleFolder (root : List (List Char)) (folderName : List Char)
deriving DecidableEq, Repr

/-- `RequirePathLocatorMode::module_folder_name`: the configured
file/directory name denoting a directory-style module's content. -/
def RequirePathLocatorMode.module_folder_name : RequirePathLocatorMode → List Char
  | .pathBased folderName => folderName
  | .moduleFolder _ folderName => folderName

/-- `RequirePathLocatorMode::get_source` (the spec's `Locate` on a module
name or path together with the containing file).  Modelled from the spec:
returns the absent value — never an error — when the reference is not one
this strategy understands (§4.2, §7). -/
def RequirePathLocatorMode.get_source :
    RequirePathLocatorMode → List Char → List (List Char) → Option (List (List Char))
  | .pathBased _, name, _ =>
    if validPath (splitPath name) then some (splitPath name) else none
  | .moduleFolder root folderName, name, _ =>
    if validComponent name then some (root ++ [name, folderName]) else none

/-- `RequirePathLocatorMode::match_path_require_call` (the spec's `Locate`
on a call site): a non-literal argument is not a module reference this
strategy understands, so it resolves to the absent value. -/
def RequirePathLocatorMode.match_path_require_call
    (mode : RequirePathLocatorMode) (call : FunctionCall)
    (source : List (List Char)) : Option (List (List Char)) :=
  match call.argument with
  | .literalString s => mode.get_source s source
  | .dynamic => none

/-- The spec's `RewriteCall`: produce a replacement call whose argument
encodes a path or name that re-resolves to `new_source_location` under the
same strategy, or the absent value when the original argument form cannot
be mechanically rewritten.  Modelled from the spec (§4.2). -/
def RequirePathLocatorMode.rewrite_require_call
    (mode : RequirePathLocatorMode) (call : FunctionCall)
    (new_source_location : List (List Char)) : Option FunctionCall :=
  match call.argument with
  | .dynamic => none
  | .literalString _ =>
    match mode with
    | .pathBased _ => some ⟨.literalString (renderPath new_source_location)⟩
    | .moduleFolder root folderName =>
      if new_source_location.take root.length = root then
        match new_source_location.drop root.length with
        | [n, f] =>
          if f = folderName ∧ validComponent n then some ⟨.literalString n⟩
          else none
        | _ => none
      else none

/-- Sanity of the exact scaling helper: `mulPow10Q q e` is `q * 10^e`. -/
theorem mulPow10Q_eq (q : ℚ) (e : ℤ) : mulPow10Q q e = q * (10 : ℚ) ^ e := by
  cases e with
  | ofNat n =>
    rw [mulPow10Q, Rat.mkRat_eq_div, Int.ofNat_eq_natCast, zpow_natCast]
    push_cast
    rw [mul_comm (q.num : ℚ), mul_div_assoc, Rat.num_div_den, mul_comm]
  | negSucc n =>
    rw [mulPow10Q, Rat.mkRat_eq_div, zpow_negSucc]
    push_cast
    rw [div_mul_eq_div_div, Rat.num_div_den, div_eq_mul_inv]

/-- Claim C1: the parser produces exactly the structures of the spec's output
contract: `"0"` is a decimal with magnitude 0 and no exponent; `"123e+456"`
a decimal with magnitude 123, exponent 456, lowercase marker; `"123E-456"`
a decimal with magnitude 123, exponent -456, uppercase marker; `"0x12p4"` a
hexadecimal with mantissa 18, exponent 4, lowercase exponent marker;
`"0xABP3"` a hexadecimal with mantissa 171, exponent 3, uppercase exponent
marker. -/
theorem parse_output_contract :
    numberFromStr "0".data = .ok (.Decimal ⟨.finite 0, none⟩)
    ∧ numberFromStr "123e+456".data = .ok (.Decimal ⟨.finite 123, some (456, false)⟩)
    ∧ numberFromStr "123E-456".data = .ok (.Decimal ⟨.finite 123, some (-456, true)⟩)
    ∧ numberFromStr "0x12p4".data = .ok (.Hex ⟨18, some (4, false), false⟩)
    ∧ numberFromStr "0xABP3".data = .ok (.Hex ⟨171, some (3, true), false⟩) := by
  refine ⟨by decide, by decide, by decide, by decide, by decide⟩

/-- Claim C2: `ComputeValue` on a hexadecimal literal with an exponent forms
the integer product `mantissa * 2^exponent` (reduced modulo `2^64`, the
wrap-around of the fixed-width integer arithmetic) and only then widens the
product to a float; whenever the product fits in `u64` the result is the
exact integer `mantissa * 2^exponent`.  In particular
`ComputeValue(Parse("0x12p4")) = 288` and
`ComputeValue(Parse("123e-4")) = 123/10000 = 0.0123`. -/
theorem compute_value_integer_path :
    (∀ (m e : ℕ) (b x : Bool),
      HexNumber.compute_value ⟨m, some (e, b), x⟩ = .finite ((m * 2 ^ e % 2 ^ 64 : ℕ) : ℚ))
    ∧ (∀ (m e : ℕ) (b x : Bool), m * 2 ^ e < 2 ^ 64 →
      HexNumber.compute_value ⟨m, some (e, b), x⟩ = .finite ((m * 2 ^ e : ℕ) : ℚ))
    ∧ parseComputeValue "0x12p4".data = some (.finite 288)
    ∧ parseComputeValue "123e-4".data = some (.finite (mkRat 123 10000)) := by
  refine ⟨fun m e b x => rfl, fun m e b x h => ?_, by decide, by decide⟩
  have h1 : HexNumber.compute_value ⟨m, some (e, b), x⟩
      = .finite ((m * 2 ^ e % 2 ^ 64 : ℕ) : ℚ) := rfl
  rw [h1, Nat.mod_eq_of_lt h]

/-- Witness for `compute_value_integer_path`: at mantissa 18 and exponent 4
the product fits and the computed float is the exact integer 288. -/
theorem compute_value_integer_path_witness :
    HexNumber.compute_value ⟨18, some (4, false), false⟩ = .finite ((18 * 2 ^ 4 : ℕ) : ℚ) :=
  compute_value_integer_path.2.1 18 4 false false (by decide)

/-- Claim C3 counterexample: `"0x1p+3"` is not rejected — the unsigned
exponent parser accepts a leading `+`, so the parse succeeds. -/
theorem hex_plus_exponent_accepted :
    numberFromStr "0x1p+3".data = .ok (.Hex ⟨1, some (3, false), false⟩) := by
  decide

/-- Claim C3 (amended): each listed invalid input maps to the stated error
kind — `""` to invalid-decimal-number, `"1e"` and `"1e-"` to
invalid-decimal-exponent, `"0x1p"` and `"0x1p-3"` to
invalid-hexadecimal-exponent — and a hex exponent with a `-` sign is
rejected as invalid-hexadecimal-exponent, while one with a `+` sign and
well-formed digits is accepted (the unsigned integer parser strips a
leading `+`). -/
theorem parse_error_mapping :
    numberFromStr "".data = .error .InvalidDecimalNumber
    ∧ numberFromStr "1e".data = .error .InvalidDecimalExponent
    ∧ numberFromStr "1e-".data = .error .InvalidDecimalExponent
    ∧ numberFromStr "0x1p".data = .error .InvalidHexadecimalExponent
    ∧ numberFromStr "0x1p-3".data = .error .InvalidHexadecimalExponent
    ∧ numberFromStr "0x1p+3".data = .ok (.Hex ⟨1, some (3, false), false⟩) := by
  refine ⟨by decide, by decide, by decide, by decide, by decide, by decide⟩

/-- Claim C4 (code bug): `"0x1p64"` parses successfully, but computing its
value multiplies 1 by `2_u64.pow(64)`, which overflows the 64-bit integer:
the overflow predicate (the panic condition of an overflow-checked build)
holds, and under the wrap-around of an unchecked build the computed float is
0 rather than `2^64`. -/
theorem compute_value_overflow_on_large_exponent :
    numberFromStr "0x1p64".data = .ok (.Hex ⟨1, some (64, false), false⟩)
    ∧ HexNumber.compute_overflows ⟨1, some (64, false), false⟩ = true
    ∧ (NumberExpression.Hex ⟨1, some (64, false), false⟩).compute_value = .finite 0
    ∧ ((1 * 2 ^ 64 : ℕ) : ℚ) ≠ 0 := by
  refine ⟨by decide, by decide, by decide, by decide⟩

/-- Claim C5: `set_uppercase` on a decimal literal with no exponent is a
no-op; on a decimal literal with an exponent it changes only the marker
flag; on a hexadecimal literal it sets the `0x` marker flag unconditionally
and the exponent marker flag to the same value when an exponent is present,
leaving mantissa and exponent values untouched — so `compute_value` is
unchanged in every case. -/
theorem set_uppercase_frame :
    (∀ (f : F64) (b : Bool), DecimalNumber.set_uppercase ⟨f, none⟩ b = ⟨f, none⟩)
    ∧ (∀ (f : F64) (e : ℤ) (c b : Bool),
      DecimalNumber.set_uppercase ⟨f, some (e, c)⟩ b = ⟨f, some (e, b)⟩)
    ∧ (∀ (m : ℕ) (x b : Bool), HexNumber.set_uppercase ⟨m, none, x⟩ b = ⟨m, none, b⟩)
    ∧ (∀ (m e : ℕ) (c x b : Bool),
      HexNumber.set_uppercase ⟨m, some (e, c), x⟩ b = ⟨m, some (e, b), b⟩)
    ∧ (∀ (n : NumberExpression) (b : Bool),
      (n.set_uppercase b).compute_value = n.compute_value) := by
  refine ⟨fun f b => rfl, fun f e c b => rfl, fun m x b => rfl, fun m e c x b => rfl, ?_⟩
  intro n b
  cases n with
  | Decimal d =>
    obtain ⟨f, ex⟩ := d
    cases ex with
    | none => rfl
    | some p => obtain ⟨e, c⟩ := p; rfl
  | Hex h =>
    obtain ⟨m, ex, x⟩ := h
    cases ex with
    | none => rfl
    | some p => obtain ⟨e, c⟩ := p; rfl

/-- Claim C10 (code bug): the declared total equality on `DecimalNumber`
compares the `f64` magnitude, and `f64` equality is not reflexive at NaN —
yet the parser produces a NaN decimal literal (from input `"nan"`), so a
literal exists that does not equal itself; on non-NaN finite magnitudes the
comparison is reflexive. -/
theorem decimal_eq_not_reflexive_at_nan :
    numberFromStr "nan".data = .ok (.Decimal ⟨.nan, none⟩)
    ∧ NumberExpression.rustEq (.Decimal ⟨.nan, none⟩) (.Decimal ⟨.nan, none⟩) = false
    ∧ (∀ (q : ℚ) (e : Option (ℤ × Bool)),
      NumberExpression.rustEq (.Decimal ⟨.finite q, e⟩) (.Decimal ⟨.finite q, e⟩) = true)
    ∧ (∀ (h : HexNumber), NumberExpression.rustEq (.Hex h) (.Hex h) = true) := by
  refine ⟨by decide, by decide, ?_, ?_⟩
  · intro q e
    simp [NumberExpression.rustEq, DecimalNumber.rustEq, F64.rustEq]
  · intro h
    simp [NumberExpression.rustEq, HexNumber.rustEq]

/-- A decimal digit character has code point between 48 and 57. -/
theorem isDigit_bounds {c : Char} (h : c.isDigit = true) :
    48 ≤ c.val.toNat ∧ c.val.toNat ≤ 57 := by
  rw [Char.isDigit, Bool.and_eq_true, decide_eq_true_iff, decide_eq_true_iff] at h
  obtain ⟨h1, h2⟩ := h
  have e48 : (48 : UInt32).toNat ≤ c.val.toNat := h1
  have e57 : c.val.toNat ≤ (57 : UInt32).toNat := h2
  exact ⟨e48, e57⟩

/-- A decimal digit character differs from any character whose code point is
outside the digit range. -/
theorem isDigit_ne {c : Char} (h : c.isDigit = true) (d : Char)
    (hd : d.val.toNat < 48 ∨ 57 < d.val.toNat) : c ≠ d := by
  intro he
  obtain ⟨hb1, hb2⟩ := isDigit_bounds h
  subst he
  cases hd with
  | inl hlt => omega
  | inr hgt => omega

/-- Lowercasing fixes decimal digit characters. -/
theorem toLower_of_isDigit {c : Char} (h : c.isDigit = true) : c.toLower = c := by
  rw [Char.isDigit] at h
  rw [Char.toLower, if_neg]
  rw [Bool.and_eq_true, decide_eq_true_iff, decide_eq_true_iff] at h
  obtain ⟨h1, h2⟩ := h
  rintro ⟨ha, hb⟩
  rw [Char.toNat] at ha
  have h2' : c.val.toNat ≤ (57 : UInt32).toNat := h2
  have h57 : (57 : UInt32).toNat = 57 := rfl
  omega

/-- Every nonempty string of plain decimal digits parses to a decimal literal
with no exponent whose magnitude is the digits' value. -/
theorem digits_parse (s : List Char) (h1 : s ≠ []) (h2 : s.all Char.isDigit = true) :
    numberFromStr s = .ok (.Decimal ⟨.finite ((digitsToNat s : ℚ)), none⟩) := by
  have hdig : ∀ c ∈ s, c.isDigit = true := List.all_eq_true.mp h2
  have hx : (startsWith0x s || startsWith0X s) = false := by
    cases s with
    | nil => rfl
    | cons c1 t =>
      cases t with
      | nil => rfl
      | cons c2 t2 =>
        have hd2 : c2.isDigit = true := hdig c2 (by simp)
        have hne1 : c2 ≠ 'x' := isDigit_ne hd2 'x' (Or.inr (by decide))
        have hne2 : c2 ≠ 'X' := isDigit_ne hd2 'X' (Or.inr (by decide))
        simp [startsWith0x, startsWith0X, hne1, hne2]
  have he : s.findIdx? (· = 'e') = none := List.findIdx?_eq_none_iff.mpr (fun c hc => by
    have hne := isDigit_ne (hdig c hc) 'e' (Or.inr (by decide))
    simp [hne])
  have hE : s.findIdx? (· = 'E') = none := List.findIdx?_eq_none_iff.mpr (fun c hc => by
    have hne := isDigit_ne (hdig c hc) 'E' (Or.inr (by decide))
    simp [hne])
  have hlow : s.map Char.toLower = s := by
    conv_rhs => rw [← List.map_id s]
    exact List.map_congr_left (fun c hc => toLower_of_isDigit (hdig c hc))
  have hf : rustParseF64 s = some (.finite ((digitsToNat s : ℚ))) := by
    obtain ⟨c, t, rfl⟩ := List.exists_cons_of_ne_nil h1
    have hcd := hdig c (by simp)
    have hplus : c ≠ '+' := isDigit_ne hcd '+' (Or.inl (by decide))
    have hminus : c ≠ '-' := isDigit_ne hcd '-' (Or.inl (by decide))
    have hstrip : stripSign (c :: t) = (false, c :: t) := by
      simp [stripSign, hplus, hminus]
    have hinf : ¬((c :: t).map Char.toLower = "inf".data
        ∨ (c :: t).map Char.toLower = "infinity".data) := by
      rw [hlow]
      rintro (hh | hh) <;>
        exact absurd (hdig 'i' (by rw [hh]; decide)) (by decide)
    have hnan : ¬((c :: t).map Char.toLower = "nan".data) := by
      rw [hlow]
      intro hh
      exact absurd (hdig 'n' (by rw [hh]; decide)) (by decide)
    have htake : (c :: t).takeWhile Char.isDigit = c :: t :=
      List.takeWhile_eq_self_iff.mpr (fun a ha => by simp [hdig a ha])
    have hdrop : (c :: t).dropWhile Char.isDigit = [] :=
      List.dropWhile_eq_nil_iff.mpr (fun a ha => by simp [hdig a ha])
    have hmant : parseMantissa (c :: t) = some ((digitsToNat (c :: t) : ℚ), []) := by
      simp only [parseMantissa, htake, hdrop]
      rw [if_neg (by simp)]
    simp only [rustParseF64, hstrip, hmant, if_neg hinf, if_neg hnan, Bool.false_eq_true,
      if_false]
  simp only [numberFromStr, hx, Bool.false_eq_true, if_false, he, hE, hf]
  rfl

/-- Claim C6 counterexample: the signed mantissa `"-1"` is accepted by the
parser (as the decimal literal -1 with no exponent), not rejected with a
parse error as the stated grammar requires. -/
theorem signed_mantissa_accepted :
    numberFromStr "-1".data = .ok (.Decimal ⟨.finite (-1), none⟩) := by
  decide

/-- Claim C6 (amended): the parser accepts the grammar's plain forms — every
nonempty digit string, a trailing or leading dot, hex digits after `0x`/`0X`
— but acceptance is decided by the platform numeric parsers and goes beyond
the stated grammar: a signed mantissa (`"-1"`), alphabetic float forms
(`"inf"`, `"nan"`), a mantissa containing an opposite-case exponent marker
(`"1E2e3"`), and a `+`-signed hex mantissa (`"0x+1"`) are all accepted,
while a hex literal whose digits exceed the 64-bit range is rejected even
though the grammar matches it; inputs outside the platform grammars are
rejected with a parse error. -/
theorem parse_acceptance_beyond_grammar :
    (∀ s : List Char, s ≠ [] → s.all Char.isDigit = true →
      numberFromStr s = .ok (.Decimal ⟨.finite ((digitsToNat s : ℚ)), none⟩))
    ∧ numberFromStr "-1".data = .ok (.Decimal ⟨.finite (-1), none⟩)
    ∧ numberFromStr "inf".data = .ok (.Decimal ⟨.inf false, none⟩)
    ∧ numberFromStr "nan".data = .ok (.Decimal ⟨.nan, none⟩)
    ∧ numberFromStr "1E2e3".data = .ok (.Decimal ⟨.finite 100, some (3, false)⟩)
    ∧ numberFromStr "0x+1".data = .ok (.Hex ⟨1, none, false⟩)
    ∧ numberFromStr "123.".data = .ok (.Decimal ⟨.finite 123, none⟩)
    ∧ numberFromStr ".5".data = .ok (.Decimal ⟨.finite (mkRat 1 2), none⟩)
    ∧ numberFromStr "0X1A".data = .ok (.Hex ⟨26, none, true⟩)
    ∧ numberFromStr "abc".data = .error .InvalidDecimalNumber
    ∧ numberFromStr "0xZ".data = .error .InvalidHexadecimalNumber
    ∧ numberFromStr "0xFFFFFFFFFFFFFFFFF".data = .error .InvalidHexadecimalNumber := by
  refine ⟨digits_parse, by decide, by decide, by decide, by decide, by decide, by decide,
    by decide, by decide, by decide, by decide, by decide⟩

/-- Witness for `parse_acceptance_beyond_grammar`: the digit string `"42"`
satisfies the hypotheses and parses to the decimal 42 with no exponent. -/
theorem parse_acceptance_beyond_grammar_witness :
    numberFromStr "42".data = .ok (.Decimal ⟨.finite ((digitsToNat "42".data : ℚ)), none⟩) :=
  parse_acceptance_beyond_grammar.1 "42".data (by decide) (by decide)

/-- Claim C7 counterexample: on `"0xZp-"` both the mantissa and the exponent
substrings are invalid, and the parser reports the exponent error — not the
mantissa error the claim states — because the exponent substring is parsed
first. -/
theorem invalid_mantissa_shadowed_by_exponent_error :
    numberFromStr "0xZp-".data = .error .InvalidHexadecimalExponent := by
  decide

/-- Claim C7 (amended): after a marker is found, the substring after the
marker is parsed first — if it fails, the exponent error kind is returned
regardless of the mantissa; only when the exponent parses does a failing
mantissa yield invalid-hexadecimal-number respectively
invalid-decimal-number.  In particular `"0xZp-"` yields
invalid-hexadecimal-exponent while `"0xZp3"` yields
invalid-hexadecimal-number. -/
theorem exponent_error_precedence :
    (∀ (s : List Char) (i : ℕ), (startsWith0x s || startsWith0X s) = true →
      s.findIdx? (· = 'p') = some i →
      rustParseU32 (s.drop (i + 1)) = none →
      numberFromStr s = .error .InvalidHexadecimalExponent)
    ∧ (∀ (s : List Char) (i e : ℕ), (startsWith0x s || startsWith0X s) = true →
      s.findIdx? (· = 'p') = some i →
      rustParseU32 (s.drop (i + 1)) = some e →
      rustParseNatHex (2 ^ 64) ((s.take i).drop 2) = none →
      numberFromStr s = .error .InvalidHexadecimalNumber)
    ∧ (∀ (s : List Char) (i : ℕ), (startsWith0x s || startsWith0X s) = false →
      s.findIdx? (· = 'e') = some i →
      rustParseI64 (s.drop (i + 1)) = none →
      numberFromStr s = .error .InvalidDecimalExponent)
    ∧ (∀ (s : List Char) (i : ℕ) (e : ℤ), (startsWith0x s || startsWith0X s) = false →
      s.findIdx? (· = 'e') = some i →
      rustParseI64 (s.drop (i + 1)) = some e →
      rustParseF64 (s.take i) = none →
      numberFromStr s = .error .InvalidDecimalNumber)
    ∧ numberFromStr "0xZp-".data = .error .InvalidHexadecimalExponent
    ∧ numberFromStr "0xZp3".data = .error .InvalidHexadecimalNumber
    ∧ numberFromStr "Qe-".data = .error .InvalidDecimalExponent
    ∧ numberFromStr "Qe5".data = .error .InvalidDecimalNumber := by
  refine ⟨?_, ?_, ?_, ?_, by decide, by decide, by decide, by decide⟩
  · intro s i h1 h2 h3
    simp only [numberFromStr, h1, h2, h3, if_true]
  · intro s i e h1 h2 h3 h4
    simp only [numberFromStr, h1, h2, h3, h4, if_true]
  · intro s i h1 h2 h3
    simp only [numberFromStr, h1, h2, h3, if_false, Bool.false_eq_true]
  · intro s i e h1 h2 h3 h4
    simp only [numberFromStr, h1, h2, h3, h4, if_false, Bool.false_eq_true]

/-- Witness for `exponent_error_precedence`: `"0x1p-3"` has its marker at
index 3 and an exponent substring `"-3"` that fails the unsigned parse, so
the parse reports invalid-hexadecimal-exponent. -/
theorem exponent_error_precedence_witness :
    numberFromStr "0x1p-3".data = .error .InvalidHexadecimalExponent :=
  exponent_error_precedence.1 "0x1p-3".data 3 (by decide) (by decide) (by decide)

/-- Rendering a valid component path and splitting it on the separator
recovers the path. -/
theorem splitPath_renderPath {p : List (List Char)} (h : validPath p = true) :
    splitPath (renderPath p) = p := by
  rw [validPath, Bool.and_eq_true] at h
  obtain ⟨h1, h2⟩ := h
  rw [splitPath, renderPath, List.splitOn_intercalate]
  · intro l hl
    have hc := List.all_eq_true.mp h2 l hl
    rw [validComponent, Bool.and_eq_true] at hc
    have hc2 := hc.2
    simp only [Bool.not_eq_true'] at hc2
    simp at hc2
    exact hc2
  · intro hnil
    subst hnil
    simp at h1

/-- Claim C8: for every strategy variant and every call form the strategy
supports, rewriting a call to a valid target path and then resolving the
rewritten call under the same strategy yields exactly that target path. -/
theorem rewrite_locate_round_trip :
    ∀ (mode : RequirePathLocatorMode) (call c' : FunctionCall)
      (new_source source : List (List Char)),
      validPath new_source = true →
      mode.rewrite_require_call call new_source = some c' →
      mode.match_path_require_call c' source = some new_source := by
  intro mode call c' new_source source hvalid hrw
  obtain ⟨arg⟩ := call
  cases arg with
  | dynamic => simp [RequirePathLocatorMode.rewrite_require_call] at hrw
  | literalString s =>
    cases mode with
    | pathBased folderName =>
      simp only [RequirePathLocatorMode.rewrite_require_call, Option.some.injEq] at hrw
      subst hrw
      simp only [RequirePathLocatorMode.match_path_require_call,
        RequirePathLocatorMode.get_source, splitPath_renderPath hvalid, hvalid, if_true]
    | moduleFolder root folderName =>
      simp only [RequirePathLocatorMode.rewrite_require_call] at hrw
      split at hrw
      · rename_i htake
        split at hrw
        · rename_i n f hdrop
          split at hrw
          · rename_i hcond
            obtain ⟨hf, hn⟩ := hcond
            simp only [Option.some.injEq] at hrw
            subst hrw
            simp only [RequirePathLocatorMode.match_path_require_call,
              RequirePathLocatorMode.get_source, hn, if_true]
            rw [← htake]
            rw [hf] at hdrop
            rw [← hdrop]
            exact congrArg some (List.take_append_drop _ _)
          · exact absurd hrw (by simp)
        · exact absurd hrw (by simp)
      · exact absurd hrw (by simp)

/-- Witness for `rewrite_locate_round_trip`: under the path-based strategy,
rewriting a literal call to the valid path `lib/mod` and resolving the
rewritten call yields `lib/mod` again. -/
theorem rewrite_locate_round_trip_witness :
    (RequirePathLocatorMode.pathBased "init".data).match_path_require_call
      ⟨.literalString "lib/mod".data⟩ [] = some ["lib".data, "mod".data] :=
  rewrite_locate_round_trip (.pathBased "init".data) ⟨.literalString "old".data⟩
    ⟨.literalString "lib/mod".data⟩ ["lib".data, "mod".data] [] (by decide) (by decide)

/-- Claim C9: an unresolvable or non-module reference is signalled by the
absent optional value, never by an error value: every strategy resolves a
dynamically computed (non-literal) call argument to the absent value, and
the module-name strategy resolves a name that is not module-shaped (one
containing a separator) to the absent value. -/
theorem locate_absence_not_error :
    (∀ (mode : RequirePathLocatorMode) (source : List (List Char)),
      mode.match_path_require_call ⟨.dynamic⟩ source = none)
    ∧ (∀ (root : List (List Char)) (folderName name : List Char)
        (source : List (List Char)), name.contains '/' = true →
      (RequirePathLocatorMode.moduleFolder root folderName).get_source name source = none) := by
  constructor
  · intro mode source
    rfl
  · intro root folderName name source h
    simp at h
    simp [RequirePathLocatorMode.get_source, validComponent, h]

/-- Witness for `locate_absence_not_error`: the module-name strategy maps the
separator-containing name `"a/b"` to the absent value. -/
theorem locate_absence_not_error_witness :
    (RequirePathLocatorMode.moduleFolder [] "init".data).get_source "a/b".data [] = none :=
  locate_absence_not_error.2 [] "init".data "a/b".data [] (by decide)
